import Mathlib

/-!
Verification of the svid-exchange token exchange service.

The Go sources are embedded shallowly:
* `policy.Evaluate` / `policy.intersect` — internal/policy (policy.go);
* `spiffe.ExtractID` / `spiffe.extractFromTLSState` — internal/spiffe/verifier.go;
* `audit.LogExchange` — internal/audit/logger.go;
* `token.Mint` — internal/token/minter.go;
* `server.Exchange` — internal/server/server.go.

Go `int32` TTL values are modelled as `Int`; the code performs only
comparisons on them (never arithmetic that could overflow), except the
minter's `now + ttl` expiry computation, which acts on `time.Time`
(64-bit Unix seconds) and cannot overflow for 32-bit TTLs, so plain `Int`
arithmetic is faithful.  Effectful collaborators (gRPC peer context, the
system clock, UUID generation, ECDSA signing, the zerolog sink) appear as
explicit inputs: the peer context as an inductive value, time and the
fresh JTI as arguments, signing as a function argument that may fail, and
the audit sink as the list of records the handler emits.
-/

namespace policy

/-- A policy rule, mirroring Go struct `Policy` in internal/policy
(fields `Name`, `Subject`, `Target`, `AllowedScopes`, `MaxTTL`). -/
structure Policy where
  Name : String
  Subject : String
  Target : String
  AllowedScopes : List String
  MaxTTL : Int
deriving Repr, DecidableEq

/-- Result of `Evaluate`, mirroring Go struct `EvalResult`.  The zero
value (`Allowed = false`, nil scopes, zero TTL) is what the Go code
returns on every denial. -/
structure EvalResult where
  Allowed : Bool
  GrantedScopes : List String
  GrantedTTL : Int
deriving Repr, DecidableEq

/-- Go `intersect(a, b)`: elements present in both `a` and `b`,
preserving the order (and multiplicity) of `a`; `slices.Contains` is
exact string equality. -/
def intersect (a b : List String) : List String :=
  a.filter (fun v => b.contains v)

/-- Go `(*Loader).Evaluate`: scan the rules in load order; skip rules
whose subject or target differ from the request; at the first matching
rule, intersect the requested scopes with the rule's allowed scopes —
an empty intersection is a denial — otherwise grant, with the requested
TTL replaced by the rule's `MaxTTL` when it is non-positive or exceeds
`MaxTTL`. -/
def Evaluate (policies : List Policy) (subject target : String)
    (scopes : List String) (ttlSeconds : Int) : EvalResult :=
  match policies with
  | [] => { Allowed := false, GrantedScopes := [], GrantedTTL := 0 }
  | p :: rest =>
    if p.Subject ≠ subject ∨ p.Target ≠ target then
      Evaluate rest subject target scopes ttlSeconds
    else
      let granted := intersect scopes p.AllowedScopes
      if granted = [] then
        { Allowed := false, GrantedScopes := [], GrantedTTL := 0 }
      else
        let grantedTTL := if ttlSeconds ≤ 0 ∨ ttlSeconds > p.MaxTTL then p.MaxTTL else ttlSeconds
        { Allowed := true, GrantedScopes := granted, GrantedTTL := grantedTTL }

/-- The predicate `Evaluate` uses to match a rule against the request. -/
def ruleMatches (subject target : String) (p : Policy) : Bool :=
  p.Subject == subject && p.Target == target

/-- Drawn from the spec's words for the lookup contract: the decision is a
function of the FIRST rule in load order whose subject and target equal
the request's, with the same intersection and TTL computation applied to
that single rule. -/
def EvaluateFirstMatch (policies : List Policy) (subject target : String)
    (scopes : List String) (ttlSeconds : Int) : EvalResult :=
  match policies.find? (ruleMatches subject target) with
  | none => { Allowed := false, GrantedScopes := [], GrantedTTL := 0 }
  | some p =>
    let granted := intersect scopes p.AllowedScopes
    if granted = [] then
      { Allowed := false, GrantedScopes := [], GrantedTTL := 0 }
    else
      let grantedTTL := if ttlSeconds ≤ 0 ∨ ttlSeconds > p.MaxTTL then p.MaxTTL else ttlSeconds
      { Allowed := true, GrantedScopes := granted, GrantedTTL := grantedTTL }

theorem ruleMatches_iff (subject target : String) (p : Policy) :
    ruleMatches subject target p = true ↔ (p.Subject = subject ∧ p.Target = target) := by
  simp [ruleMatches]

lemma evaluate_eq_firstMatch (policies : List Policy) (subject target : String)
    (scopes : List String) (ttlSeconds : Int) :
    Evaluate policies subject target scopes ttlSeconds =
      EvaluateFirstMatch policies subject target scopes ttlSeconds := by
  induction policies with
  | nil => rfl
  | cons p rest ih =>
    by_cases h : p.Subject ≠ subject ∨ p.Target ≠ target
    · have hm : ¬ ruleMatches subject target p = true := by
        rw [ruleMatches_iff]
        rcases h with h | h
        · exact fun hc => h hc.1
        · exact fun hc => h hc.2
      rw [Evaluate, if_pos h, ih]
      unfold EvaluateFirstMatch
      rw [List.find?_cons_of_neg _ hm]
    · have hps : p.Subject = subject ∧ p.Target = target := by
        push_neg at h; exact h
      have hm : ruleMatches subject target p = true :=
        (ruleMatches_iff subject target p).mpr hps
      rw [Evaluate, if_neg h]
      unfold EvaluateFirstMatch
      rw [List.find?_cons_of_pos _ hm]

lemma evaluate_allowed_firstMatch {policies : List Policy} {subject target : String}
    {scopes : List String} {ttlSeconds : Int}
    (h : (Evaluate policies subject target scopes ttlSeconds).Allowed = true) :
    ∃ p, (policies.find? (ruleMatches subject target)) = some p ∧
      intersect scopes p.AllowedScopes ≠ [] ∧
      Evaluate policies subject target scopes ttlSeconds =
        { Allowed := true,
          GrantedScopes := intersect scopes p.AllowedScopes,
          GrantedTTL := if ttlSeconds ≤ 0 ∨ ttlSeconds > p.MaxTTL then p.MaxTTL else ttlSeconds } := by
  rw [evaluate_eq_firstMatch] at h ⊢
  unfold EvaluateFirstMatch at h ⊢
  cases hf : policies.find? (ruleMatches subject target) with
  | none => simp only [hf] at h; simp at h
  | some p =>
    simp only [hf] at h ⊢
    by_cases hg : intersect scopes p.AllowedScopes = []
    · simp only [hg, if_pos rfl] at h
      simp at h
    · exact ⟨p, rfl, hg, by simp only [if_neg hg]⟩

/-- The example rule `order-to-payment` of policy.example.yaml and the
package tests, used to instantiate witnesses. -/
def orderRule : Policy :=
  { Name := "order-to-payment",
    Subject := "spiffe://cluster.local/ns/default/sa/order",
    Target := "spiffe://cluster.local/ns/default/sa/payment",
    AllowedScopes := ["payments:charge", "payments:refund"],
    MaxTTL := 300 }

end policy

namespace policy

/-- C1: whenever `Evaluate` allows, the granted scopes are a non-empty
order-preserving subsequence of the requested scopes, and each granted
scope belongs to the first matching rule's allowed scopes. -/
theorem evaluate_granted_scopes_sound (policies : List Policy) (subject target : String)
    (scopes : List String) (ttlSeconds : Int)
    (h : (Evaluate policies subject target scopes ttlSeconds).Allowed = true) :
    ∃ p, policies.find? (ruleMatches subject target) = some p ∧
      (Evaluate policies subject target scopes ttlSeconds).GrantedScopes ≠ [] ∧
      (Evaluate policies subject target scopes ttlSeconds).GrantedScopes.Sublist scopes ∧
      ∀ s ∈ (Evaluate policies subject target scopes ttlSeconds).GrantedScopes,
        s ∈ p.AllowedScopes := by
  obtain ⟨p, hf, hg, heq⟩ := evaluate_allowed_firstMatch h
  refine ⟨p, hf, ?_, ?_, ?_⟩
  · rw [heq]; exact hg
  · rw [heq]; exact List.filter_sublist scopes
  · intro s hs
    rw [heq] at hs
    simp only [intersect, List.mem_filter] at hs
    exact List.elem_iff.mp hs.2

lemma evaluate_of_firstMatch {policies : List Policy} {subject target : String}
    (scopes : List String) (ttlSeconds : Int) {p : Policy}
    (hf : policies.find? (ruleMatches subject target) = some p) :
    Evaluate policies subject target scopes ttlSeconds =
      (if intersect scopes p.AllowedScopes = [] then
        { Allowed := false, GrantedScopes := [], GrantedTTL := 0 }
      else
        { Allowed := true,
          GrantedScopes := intersect scopes p.AllowedScopes,
          GrantedTTL := if ttlSeconds ≤ 0 ∨ ttlSeconds > p.MaxTTL then p.MaxTTL
                        else ttlSeconds }) := by
  rw [evaluate_eq_firstMatch]
  unfold EvaluateFirstMatch
  rw [hf]

/-- Witness for C1 at the repository's example rule. -/
theorem evaluate_granted_scopes_sound_witness :
    ∃ p, [orderRule].find? (ruleMatches orderRule.Subject orderRule.Target) = some p ∧
      (Evaluate [orderRule] orderRule.Subject orderRule.Target
        ["payments:charge"] 100).GrantedScopes ≠ [] ∧
      (Evaluate [orderRule] orderRule.Subject orderRule.Target
        ["payments:charge"] 100).GrantedScopes.Sublist ["payments:charge"] ∧
      ∀ s ∈ (Evaluate [orderRule] orderRule.Subject orderRule.Target
        ["payments:charge"] 100).GrantedScopes, s ∈ p.AllowedScopes :=
  evaluate_granted_scopes_sound [orderRule] orderRule.Subject orderRule.Target
    ["payments:charge"] 100 (by decide)

/-- A rule whose `max_ttl` is zero; nothing in `LoadFile` or `Evaluate`
rules such a rule out. -/
def zeroTTLRule : Policy :=
  { Name := "zero-ttl", Subject := "s", Target := "t",
    AllowedScopes := ["a"], MaxTTL := 0 }

/-- C2 counterexample: against a rule with `max_ttl = 0`, `Evaluate`
returns `allowed = true` with `granted_ttl = 0`, so `0 < granted_ttl`
fails. -/
theorem evaluate_zero_maxTTL_counterexample :
    (Evaluate [zeroTTLRule] "s" "t" ["a"] 5).Allowed = true ∧
      ¬ (0 < (Evaluate [zeroTTLRule] "s" "t" ["a"] 5).GrantedTTL) := by
  decide

/-- C2 amended: whenever `Evaluate` allows, `granted_ttl ≤ max_ttl` of the
first matching rule, and `0 < granted_ttl` provided that rule's `max_ttl`
is positive (which every realistic policy file satisfies; a zero or
negative `max_ttl` propagates into `granted_ttl` unchanged). -/
theorem evaluate_granted_ttl_bounds (policies : List Policy) (subject target : String)
    (scopes : List String) (ttlSeconds : Int)
    (h : (Evaluate policies subject target scopes ttlSeconds).Allowed = true) :
    ∃ p, policies.find? (ruleMatches subject target) = some p ∧
      (Evaluate policies subject target scopes ttlSeconds).GrantedTTL ≤ p.MaxTTL ∧
      (0 < p.MaxTTL →
        0 < (Evaluate policies subject target scopes ttlSeconds).GrantedTTL) := by
  obtain ⟨p, hf, hg, heq⟩ := evaluate_allowed_firstMatch h
  refine ⟨p, hf, ?_, ?_⟩ <;> rw [heq] <;> dsimp only <;> split_ifs with hc
  · exact le_refl _
  · push_neg at hc; exact hc.2
  · exact fun hmax => hmax
  · push_neg at hc; exact fun _ => hc.1

/-- Witness for C2's amended theorem at the repository's example rule. -/
theorem evaluate_granted_ttl_bounds_witness :
    ∃ p, [orderRule].find? (ruleMatches orderRule.Subject orderRule.Target) = some p ∧
      (Evaluate [orderRule] orderRule.Subject orderRule.Target
        ["payments:charge"] 100).GrantedTTL ≤ p.MaxTTL ∧
      (0 < p.MaxTTL →
        0 < (Evaluate [orderRule] orderRule.Subject orderRule.Target
          ["payments:charge"] 100).GrantedTTL) :=
  evaluate_granted_ttl_bounds [orderRule] orderRule.Subject orderRule.Target
    ["payments:charge"] 100 (by decide)

/-- C4: with a matching rule and a non-empty scope intersection, the
granted TTL is the requested TTL when it lies in `(0, max_ttl]` and the
rule's `max_ttl` otherwise; in particular a requested TTL of exactly 0
falls in the max_ttl branch, the same as any unspecified TTL. -/
theorem evaluate_ttl_clamp (policies : List Policy) (subject target : String)
    (scopes : List String) (ttlSeconds : Int) (p : Policy)
    (hf : policies.find? (ruleMatches subject target) = some p)
    (hg : intersect scopes p.AllowedScopes ≠ []) :
    ((0 < ttlSeconds ∧ ttlSeconds ≤ p.MaxTTL) →
      (Evaluate policies subject target scopes ttlSeconds).GrantedTTL = ttlSeconds) ∧
    ((ttlSeconds ≤ 0 ∨ ttlSeconds > p.MaxTTL) →
      (Evaluate policies subject target scopes ttlSeconds).GrantedTTL = p.MaxTTL) ∧
    (Evaluate policies subject target scopes 0).GrantedTTL = p.MaxTTL := by
  refine ⟨?_, ?_, ?_⟩
  · intro hin
    rw [evaluate_of_firstMatch scopes ttlSeconds hf, if_neg hg]
    dsimp only
    rw [if_neg]
    push_neg
    exact ⟨hin.1, hin.2⟩
  · intro hout
    rw [evaluate_of_firstMatch scopes ttlSeconds hf, if_neg hg]
    dsimp only
    rw [if_pos hout]
  · rw [evaluate_of_firstMatch scopes 0 hf, if_neg hg]
    dsimp only
    rw [if_pos (Or.inl (le_refl 0))]

/-- Witness for C4 at the repository's example rule (TTL 9999 is clamped
to 300, TTL 0 becomes 300). -/
theorem evaluate_ttl_clamp_witness :
    [orderRule].find? (ruleMatches orderRule.Subject orderRule.Target) = some orderRule ∧
    intersect ["payments:charge"] orderRule.AllowedScopes ≠ [] ∧
    ((0 < (9999 : Int) ∧ (9999 : Int) ≤ orderRule.MaxTTL) →
      (Evaluate [orderRule] orderRule.Subject orderRule.Target
        ["payments:charge"] 9999).GrantedTTL = 9999) ∧
    (((9999 : Int) ≤ 0 ∨ (9999 : Int) > orderRule.MaxTTL) →
      (Evaluate [orderRule] orderRule.Subject orderRule.Target
        ["payments:charge"] 9999).GrantedTTL = orderRule.MaxTTL) ∧
    (Evaluate [orderRule] orderRule.Subject orderRule.Target
      ["payments:charge"] 0).GrantedTTL = orderRule.MaxTTL :=
  ⟨by decide, by decide,
    evaluate_ttl_clamp [orderRule] orderRule.Subject orderRule.Target
      ["payments:charge"] 9999 orderRule (by decide) (by decide)⟩

/-- C6: the decision of `Evaluate` is exactly the decision computed from
the first rule in load order whose subject and target equal the
request's — later matching rules never influence it, and a first match
with an empty scope intersection is a denial. -/
theorem evaluate_first_match_wins (policies : List Policy) (subject target : String)
    (scopes : List String) (ttlSeconds : Int) :
    Evaluate policies subject target scopes ttlSeconds =
      EvaluateFirstMatch policies subject target scopes ttlSeconds :=
  evaluate_eq_firstMatch policies subject target scopes ttlSeconds

/-- C10: with a matching rule, a scope from the rule's allowed set that
occurs k times in the requested scopes occurs k times in the granted
scopes — the intersection deduplicates nothing. -/
theorem evaluate_preserves_duplicates (policies : List Policy) (subject target : String)
    (scopes : List String) (ttlSeconds : Int) (p : Policy)
    (hf : policies.find? (ruleMatches subject target) = some p) :
    ∀ s ∈ p.AllowedScopes,
      (Evaluate policies subject target scopes ttlSeconds).GrantedScopes.count s =
        scopes.count s := by
  intro s hs
  have hc : p.AllowedScopes.contains s = true := List.elem_iff.mpr hs
  rw [evaluate_of_firstMatch scopes ttlSeconds hf]
  by_cases hg : intersect scopes p.AllowedScopes = []
  · rw [if_pos hg]
    dsimp only
    rw [List.count_nil]
    have hnotmem : s ∉ scopes := by
      intro hmem
      have := (List.filter_eq_nil_iff.mp hg) s hmem
      exact this hc
    exact (List.count_eq_zero.mpr hnotmem).symm
  · rw [if_neg hg]
    dsimp only
    exact List.count_filter hc

/-- Witness for C10: the duplicated request scope is granted twice. -/
theorem evaluate_preserves_duplicates_witness :
    (Evaluate [orderRule] orderRule.Subject orderRule.Target
      ["payments:charge", "payments:charge"] 100).GrantedScopes.count "payments:charge" =
      (["payments:charge", "payments:charge"] : List String).count "payments:charge" :=
  evaluate_preserves_duplicates [orderRule] orderRule.Subject orderRule.Target
    ["payments:charge", "payments:charge"] 100 orderRule (by decide)
    "payments:charge" (by decide)

end policy

namespace spiffe

/-- Go constant `spiffeScheme`. -/
def spiffeScheme : String := "spiffe"

/-- A URI SAN as the verifier reads it: `url.URL` restricted to the
fields the code inspects (`Scheme`, `Host`) plus the remainder of its
rendering, so that `uri.String()` can be reproduced. -/
structure URI where
  Scheme : String
  Host : String
  Rest : String
deriving Repr, DecidableEq

/-- Go `url.URL.String()` for a scheme://host... URI. -/
def URI.render (u : URI) : String :=
  u.Scheme ++ "://" ++ u.Host ++ u.Rest

/-- An X.509 certificate restricted to the one field the verifier reads. -/
structure Certificate where
  URIs : List URI
deriving Repr, DecidableEq

/-- Go `tls.ConnectionState` restricted to `PeerCertificates`. -/
structure ConnectionState where
  PeerCertificates : List Certificate
deriving Repr, DecidableEq

/-- The error values of internal/spiffe/verifier.go: the four sentinel
errors, plus the wrapped invalid-SPIFFE-ID error carrying the rendered
URI (Go wraps the validateSPIFFEID message with the URI string). -/
inductive ExtractError where
  | ErrNoPeerInfo
  | ErrNoTLSInfo
  | ErrNoCerts
  | ErrNoSPIFFEID
  | ErrInvalidSPIFFEID (uri : String) (msg : String)
deriving Repr, DecidableEq

/-- What `ExtractID` observes in the request context: no gRPC peer at
all, a peer whose `AuthInfo` is not `credentials.TLSInfo`, or TLS info
with its connection state. -/
inductive PeerContext where
  | noPeer
  | peerWithoutTLS
  | peerWithTLS (state : ConnectionState)
deriving Repr, DecidableEq

/-- Go `validateSPIFFEID`: requires a non-empty trust-domain (Host)
component; returns the error message when invalid. -/
def validateSPIFFEID (u : URI) : Option String :=
  if u.Host = "" then some "missing trust domain" else none

/-- The loop body of `extractFromTLSState` over the leaf certificate's
URI SANs: the first URI with the spiffe scheme decides — invalid means
a wrapped error, valid means success — and exhausting the list yields
`ErrNoSPIFFEID`. -/
def searchURIs : List URI → Except ExtractError String
  | [] => .error .ErrNoSPIFFEID
  | u :: rest =>
    if u.Scheme = spiffeScheme then
      match validateSPIFFEID u with
      | some msg => .error (.ErrInvalidSPIFFEID (URI.render u) msg)
      | none => .ok (URI.render u)
    else searchURIs rest

/-- Go `extractFromTLSState`: require at least one peer certificate and
search the leaf's URI SANs. -/
def extractFromTLSState (state : ConnectionState) : Except ExtractError String :=
  match state.PeerCertificates with
  | [] => .error .ErrNoCerts
  | leaf :: _ => searchURIs leaf.URIs

/-- Go `ExtractID`: peer lookup, TLS-info type assertion, then the
connection-state extraction. -/
def ExtractID : PeerContext → Except ExtractError String
  | .noPeer => .error .ErrNoPeerInfo
  | .peerWithoutTLS => .error .ErrNoTLSInfo
  | .peerWithTLS state => extractFromTLSState state

/-- The predicate selecting a spiffe-scheme URI SAN. -/
def isSpiffeURI (u : URI) : Bool :=
  u.Scheme == spiffeScheme

lemma searchURIs_eq_find (uris : List URI) :
    searchURIs uris =
      match uris.find? isSpiffeURI with
      | none => .error .ErrNoSPIFFEID
      | some u =>
        if u.Host = "" then .error (.ErrInvalidSPIFFEID (URI.render u) "missing trust domain")
        else .ok (URI.render u)
    := by
  induction uris with
  | nil => rfl
  | cons u rest ih =>
    by_cases hsch : u.Scheme = spiffeScheme
    · have hp : isSpiffeURI u = true := by simp [isSpiffeURI, hsch]
      rw [searchURIs, if_pos hsch, List.find?_cons_of_pos _ hp]
      by_cases hh : u.Host = "" <;> simp [validateSPIFFEID, hh]
    · have hp : ¬ isSpiffeURI u = true := by simp [isSpiffeURI, hsch]
      rw [searchURIs, if_neg hsch, List.find?_cons_of_neg _ hp, ih]

end spiffe

namespace spiffe

/-- C8: each failure mode of `ExtractID` yields its own distinct error —
no peer info, peer without TLS info, zero peer certificates, no
spiffe-scheme URI SAN on the leaf, and a first spiffe-scheme URI with an
empty trust-domain authority — and otherwise the rendered first
spiffe-scheme URI SAN of the leaf certificate is returned. -/
theorem extractID_cases :
    (ExtractID .noPeer = .error .ErrNoPeerInfo) ∧
    (ExtractID .peerWithoutTLS = .error .ErrNoTLSInfo) ∧
    (∀ st : ConnectionState, st.PeerCertificates = [] →
      ExtractID (.peerWithTLS st) = .error .ErrNoCerts) ∧
    (∀ (st : ConnectionState) (leaf : Certificate) (rest : List Certificate),
      st.PeerCertificates = leaf :: rest →
      leaf.URIs.find? isSpiffeURI = none →
      ExtractID (.peerWithTLS st) = .error .ErrNoSPIFFEID) ∧
    (∀ (st : ConnectionState) (leaf : Certificate) (rest : List Certificate) (u : URI),
      st.PeerCertificates = leaf :: rest →
      leaf.URIs.find? isSpiffeURI = some u →
      u.Host = "" →
      ExtractID (.peerWithTLS st) =
        .error (.ErrInvalidSPIFFEID (URI.render u) "missing trust domain")) ∧
    (∀ (st : ConnectionState) (leaf : Certificate) (rest : List Certificate) (u : URI),
      st.PeerCertificates = leaf :: rest →
      leaf.URIs.find? isSpiffeURI = some u →
      u.Host ≠ "" →
      ExtractID (.peerWithTLS st) = .ok (URI.render u)) ∧
    ([ExtractError.ErrNoPeerInfo, .ErrNoTLSInfo, .ErrNoCerts, .ErrNoSPIFFEID].Pairwise (· ≠ ·)) := by
  refine ⟨rfl, rfl, ?_, ?_, ?_, ?_, by decide⟩
  · intro st h
    cases st with
    | mk certs => cases h; rfl
  · intro st leaf rest h hf
    cases st with
    | mk certs =>
      cases h
      show searchURIs leaf.URIs = _
      rw [searchURIs_eq_find, hf]
  · intro st leaf rest u h hf hh
    cases st with
    | mk certs =>
      cases h
      show searchURIs leaf.URIs = _
      rw [searchURIs_eq_find, hf]
      simp only [if_pos hh]
  · intro st leaf rest u h hf hh
    cases st with
    | mk certs =>
      cases h
      show searchURIs leaf.URIs = _
      rw [searchURIs_eq_find, hf]
      simp only [if_neg hh]

/-- The SPIFFE URI SAN used throughout the repository's tests. -/
def orderURI : URI :=
  ⟨"spiffe", "cluster.local", "/ns/default/sa/order"⟩

/-- Witness for C8: the success case and the no-certificates case at the
SPIFFE ID used throughout the repository's tests. -/
theorem extractID_cases_witness :
    ExtractID (.peerWithTLS ⟨[]⟩) = .error .ErrNoCerts ∧
    ExtractID (.peerWithTLS ⟨[⟨[orderURI]⟩]⟩) = .ok (URI.render orderURI) :=
  ⟨extractID_cases.2.2.1 ⟨[]⟩ rfl,
   extractID_cases.2.2.2.2.2.1 ⟨[⟨[orderURI]⟩]⟩ ⟨[orderURI]⟩ [] orderURI rfl
     (by decide) (by decide)⟩

end spiffe

namespace audit

/-- Go struct `ExchangeEvent` of internal/audit/logger.go. -/
structure ExchangeEvent where
  Subject : String
  Target : String
  ScopesRequested : List String
  ScopesGranted : List String
  Granted : Bool
  TTL : Int
  TokenID : String
  DenialReason : String
deriving Repr, DecidableEq

/-- A zerolog field value, by the typed setters `LogExchange` uses. -/
inductive Field where
  | str (s : String)
  | strs (l : List String)
  | boolean (b : Bool)
  | int32 (i : Int)
deriving Repr, DecidableEq

/-- Go `(*Logger).LogExchange`: the ordered key/value fields of the one
record emitted per call (zerolog appends fields in call order; the
timestamp and level fields added by the logger's configuration carry no
event data and are omitted). -/
def LogExchange (e : ExchangeEvent) : List (String × Field) :=
  [("event", .str "token.exchange"),
   ("subject", .str e.Subject),
   ("target", .str e.Target),
   ("scopes_requested", .strs e.ScopesRequested),
   ("granted", .boolean e.Granted)] ++
  (if e.Granted then
    [("scopes_granted", .strs e.ScopesGranted),
     ("ttl", .int32 e.TTL),
     ("token_id", .str e.TokenID)]
  else
    [("denial_reason", .str e.DenialReason)])

/-- The keys of the record `LogExchange` emits. -/
def auditKeys (e : ExchangeEvent) : List String :=
  (LogExchange e).map Prod.fst

/-- C9: a granted record carries exactly the grant fields
(scopes_granted, ttl, token_id) and no denial_reason; a denied record
carries denial_reason and none of the grant fields — in particular a
denied event never carries a token identifier. -/
theorem logExchange_grant_xor_denial (e : ExchangeEvent) :
    (e.Granted = true →
      "scopes_granted" ∈ auditKeys e ∧ "ttl" ∈ auditKeys e ∧
      "token_id" ∈ auditKeys e ∧ "denial_reason" ∉ auditKeys e) ∧
    (e.Granted = false →
      "denial_reason" ∈ auditKeys e ∧ "scopes_granted" ∉ auditKeys e ∧
      "ttl" ∉ auditKeys e ∧ "token_id" ∉ auditKeys e) := by
  constructor <;> intro hg <;> simp [auditKeys, LogExchange, hg]

/-- The granted event of the package's tests (shortened strings). -/
def grantedEvent : ExchangeEvent :=
  ⟨"s", "t", ["a"], ["a"], true, 300, "test-jti-123", ""⟩

/-- The denied event of the package's tests (shortened strings). -/
def deniedEvent : ExchangeEvent :=
  ⟨"s", "t", ["a"], [], false, 0, "", "no policy"⟩

/-- Witness for C9 at the two events of the package's tests. -/
theorem logExchange_grant_xor_denial_witness :
    ("scopes_granted" ∈ auditKeys grantedEvent ∧
      "ttl" ∈ auditKeys grantedEvent ∧
      "token_id" ∈ auditKeys grantedEvent ∧
      "denial_reason" ∉ auditKeys grantedEvent) ∧
    ("denial_reason" ∈ auditKeys deniedEvent ∧
      "scopes_granted" ∉ auditKeys deniedEvent ∧
      "ttl" ∉ auditKeys deniedEvent ∧
      "token_id" ∉ auditKeys deniedEvent) :=
  ⟨(logExchange_grant_xor_denial grantedEvent).1 rfl,
   (logExchange_grant_xor_denial deniedEvent).2 rfl⟩

end audit

namespace token

/-- Go constant `issuer` of internal/token/minter.go. -/
def issuer : String := "svid-exchange"

/-- Go constant `maxTTLCap`: hard one-hour ceiling regardless of policy. -/
def maxTTLCap : Int := 3600

/-- The TTL actually used by `Mint`: the reassignment at the top of the
Go function substitutes the cap for non-positive or over-cap inputs. -/
def effectiveTTL (ttlSeconds : Int) : Int :=
  if ttlSeconds ≤ 0 ∨ ttlSeconds > maxTTLCap then maxTTLCap else ttlSeconds

/-- The JWT claims map `Mint` constructs (`jwt.MapClaims`), with times as
Unix seconds: `iat` is `now.Unix()` and `exp` is `exp.Unix()` for
`exp = now.Add(ttl seconds)`, which in whole seconds is `now + ttl`. -/
structure Claims where
  iss : String
  sub : String
  aud : List String
  scope : String
  iat : Int
  exp : Int
  jti : String
deriving Repr, DecidableEq

/-- Go struct `MintResult`, with `ExpiresAt` as Unix seconds. -/
structure MintResult where
  Token : String
  TokenID : String
  ExpiresAt : Int
  GrantedScopes : List String
deriving Repr, DecidableEq

/-- The claims `Mint` signs for the given inputs; `now` is the issue time
in Unix seconds and `jti` the freshly generated UUID. -/
def mintClaims (subject target : String) (scopes : List String)
    (ttlSeconds : Int) (now : Int) (jti : String) : Claims :=
  { iss := issuer, sub := subject, aud := [target],
    scope := String.intercalate " " scopes,
    iat := now, exp := now + effectiveTTL ttlSeconds, jti := jti }

/-- Go `(*Minter).Mint`: clamp the TTL, build the claims, sign them —
signing is the only fallible step — and return the signed compact token
with its metadata.  The entropy-drawing collaborators appear as inputs:
`now` for `time.Now().UTC()`, `jti` for `uuid.New().String()`, and
`sign` for `SignedString` with the minter's key. -/
def Mint (sign : Claims → Except String String) (subject target : String)
    (scopes : List String) (ttlSeconds : Int) (now : Int) (jti : String) :
    Except String MintResult :=
  match sign (mintClaims subject target scopes ttlSeconds now jti) with
  | .error e => .error e
  | .ok signed =>
    .ok { Token := signed, TokenID := jti,
          ExpiresAt := now + effectiveTTL ttlSeconds, GrantedScopes := scopes }

/-- C7: a successful `Mint` uses the requested TTL when it lies in
`(0, 3600]` and 3600 otherwise, returns `ExpiresAt` equal to the issue
time plus that effective TTL, and signs claims with `iss`
svid-exchange, `sub` the subject, `aud` the target, `scope` the
space-joined scopes, `jti` the returned token id, `iat` the issue time
and `exp` the returned expiry. -/
theorem mint_success_shape (sign : Claims → Except String String)
    (subject target : String) (scopes : List String)
    (ttlSeconds now : Int) (jti : String) (res : MintResult)
    (h : Mint sign subject target scopes ttlSeconds now jti = .ok res) :
    res.ExpiresAt =
        now + (if 0 < ttlSeconds ∧ ttlSeconds ≤ 3600 then ttlSeconds else 3600) ∧
    res.TokenID = jti ∧
    res.GrantedScopes = scopes ∧
    sign (mintClaims subject target scopes ttlSeconds now jti) = .ok res.Token ∧
    (mintClaims subject target scopes ttlSeconds now jti).iss = "svid-exchange" ∧
    (mintClaims subject target scopes ttlSeconds now jti).sub = subject ∧
    (mintClaims subject target scopes ttlSeconds now jti).aud = [target] ∧
    (mintClaims subject target scopes ttlSeconds now jti).scope =
        String.intercalate " " scopes ∧
    (mintClaims subject target scopes ttlSeconds now jti).jti = res.TokenID ∧
    (mintClaims subject target scopes ttlSeconds now jti).iat = now ∧
    (mintClaims subject target scopes ttlSeconds now jti).exp = res.ExpiresAt := by
  unfold Mint at h
  cases hs : sign (mintClaims subject target scopes ttlSeconds now jti) with
  | error e => rw [hs] at h; exact absurd h (by simp)
  | ok signed =>
    rw [hs] at h
    have hres : res = ⟨signed, jti, now + effectiveTTL ttlSeconds, scopes⟩ := by
      cases h; rfl
    subst hres
    refine ⟨?_, rfl, rfl, rfl, rfl, rfl, rfl, rfl, rfl, rfl, rfl⟩
    dsimp only
    unfold effectiveTTL maxTTLCap
    split_ifs with h1 h2 <;> first | rfl | omega

/-- A signer that always succeeds with a fixed signature, for witnesses. -/
def okSigner : Claims → Except String String :=
  fun _ => Except.ok "sig"

/-- Witness for C7 with an always-succeeding signer at a 120-second TTL. -/
theorem mint_success_shape_witness :
    (⟨"sig", "jti-1", 1000 + effectiveTTL 120, ["a"]⟩ : MintResult).ExpiresAt =
        1000 + (if 0 < (120 : Int) ∧ (120 : Int) ≤ 3600 then (120 : Int) else 3600) ∧
    (⟨"sig", "jti-1", 1000 + effectiveTTL 120, ["a"]⟩ : MintResult).TokenID = "jti-1" ∧
    (⟨"sig", "jti-1", 1000 + effectiveTTL 120, ["a"]⟩ : MintResult).GrantedScopes = ["a"] ∧
    okSigner (mintClaims "s" "t" ["a"] 120 1000 "jti-1") =
        Except.ok (⟨"sig", "jti-1", 1000 + effectiveTTL 120, ["a"]⟩ : MintResult).Token ∧
    (mintClaims "s" "t" ["a"] 120 1000 "jti-1").iss = "svid-exchange" ∧
    (mintClaims "s" "t" ["a"] 120 1000 "jti-1").sub = "s" ∧
    (mintClaims "s" "t" ["a"] 120 1000 "jti-1").aud = ["t"] ∧
    (mintClaims "s" "t" ["a"] 120 1000 "jti-1").scope = String.intercalate " " ["a"] ∧
    (mintClaims "s" "t" ["a"] 120 1000 "jti-1").jti =
        (⟨"sig", "jti-1", 1000 + effectiveTTL 120, ["a"]⟩ : MintResult).TokenID ∧
    (mintClaims "s" "t" ["a"] 120 1000 "jti-1").iat = 1000 ∧
    (mintClaims "s" "t" ["a"] 120 1000 "jti-1").exp =
        (⟨"sig", "jti-1", 1000 + effectiveTTL 120, ["a"]⟩ : MintResult).ExpiresAt :=
  mint_success_shape okSigner "s" "t" ["a"] 120 1000 "jti-1"
    ⟨"sig", "jti-1", 1000 + effectiveTTL 120, ["a"]⟩ rfl

end token

namespace server

/-- The gRPC status codes `Exchange` returns on failure
(internal/server/server.go). -/
inductive Code where
  | Unauthenticated
  | InvalidArgument
  | PermissionDenied
  | Internal
deriving Repr, DecidableEq

/-- The wire request (proto `ExchangeRequest`): target service, scopes,
requested TTL. -/
structure ExchangeRequest where
  TargetService : String
  Scopes : List String
  TtlSeconds : Int
deriving Repr, DecidableEq

/-- The wire response (proto `ExchangeResponse`); `ExpiresAt` is
`minted.ExpiresAt.Unix()` in seconds. -/
structure ExchangeResponse where
  Token : String
  ExpiresAt : Int
  GrantedScopes : List String
  TokenId : String
deriving Repr, DecidableEq

/-- One run of the handler: the gRPC result, the audit records emitted
through `s.audit.LogExchange`, and the argument tuples of every
`s.minter.Mint` invocation (so that "the minter is never invoked" is a
statement about the run, not about the mint function). -/
structure ExchangeTrace where
  result : Except Code ExchangeResponse
  auditEvents : List audit.ExchangeEvent
  mintCalls : List (String × String × List String × Int)

/-- The denial audit event server.go constructs: zero-valued grant
fields and the formatted denial reason. -/
def denialEvent (subjectID : String) (req : ExchangeRequest) : audit.ExchangeEvent :=
  ⟨subjectID, req.TargetService, req.Scopes, [], false, 0, "",
   "no policy permits " ++ subjectID ++ " → " ++ req.TargetService⟩

/-- The success audit event server.go constructs. -/
def grantEvent (subjectID : String) (req : ExchangeRequest)
    (result : policy.EvalResult) (tokenID : String) : audit.ExchangeEvent :=
  ⟨subjectID, req.TargetService, req.Scopes, result.GrantedScopes, true,
   result.GrantedTTL, tokenID, ""⟩

/-- Go `(*TokenExchangeServer).Exchange`: extract the caller identity
(any extractor error is Unauthenticated), validate the request body
(empty target, then empty scope list, are InvalidArgument), evaluate
policy, audit-and-deny on a disallowed result, otherwise mint — a mint
error is Internal — and audit-and-respond on success.  The extractor's
outcome for this context, the policy evaluator, and the minter are the
handler's injected dependencies. -/
def Exchange (extractID : Except spiffe.ExtractError String)
    (evaluate : String → String → List String → Int → policy.EvalResult)
    (mint : String → String → List String → Int → Except String token.MintResult)
    (req : ExchangeRequest) : ExchangeTrace :=
  match extractID with
  | .error _ => ⟨.error .Unauthenticated, [], []⟩
  | .ok subjectID =>
    if req.TargetService = "" then ⟨.error .InvalidArgument, [], []⟩
    else if req.Scopes = [] then ⟨.error .InvalidArgument, [], []⟩
    else
      let result := evaluate subjectID req.TargetService req.Scopes req.TtlSeconds
      if result.Allowed = false then
        ⟨.error .PermissionDenied, [denialEvent subjectID req], []⟩
      else
        match mint subjectID req.TargetService result.GrantedScopes result.GrantedTTL with
        | .error _ =>
          ⟨.error .Internal, [],
           [(subjectID, req.TargetService, result.GrantedScopes, result.GrantedTTL)]⟩
        | .ok minted =>
          ⟨.ok ⟨minted.Token, minted.ExpiresAt, result.GrantedScopes, minted.TokenID⟩,
           [grantEvent subjectID req result minted.TokenID],
           [(subjectID, req.TargetService, result.GrantedScopes, result.GrantedTTL)]⟩

lemma exchange_ok_valid (evaluate : String → String → List String → Int → policy.EvalResult)
    (mint : String → String → List String → Int → Except String token.MintResult)
    (req : ExchangeRequest) (s : String)
    (ht : req.TargetService ≠ "") (hsc : req.Scopes ≠ []) :
    Exchange (.ok s) evaluate mint req =
      (if (evaluate s req.TargetService req.Scopes req.TtlSeconds).Allowed = false then
         ⟨.error .PermissionDenied, [denialEvent s req], []⟩
       else
         match mint s req.TargetService
             (evaluate s req.TargetService req.Scopes req.TtlSeconds).GrantedScopes
             (evaluate s req.TargetService req.Scopes req.TtlSeconds).GrantedTTL with
         | .error _ =>
           ⟨.error .Internal, [],
            [(s, req.TargetService,
              (evaluate s req.TargetService req.Scopes req.TtlSeconds).GrantedScopes,
              (evaluate s req.TargetService req.Scopes req.TtlSeconds).GrantedTTL)]⟩
         | .ok minted =>
           ⟨.ok ⟨minted.Token, minted.ExpiresAt,
                 (evaluate s req.TargetService req.Scopes req.TtlSeconds).GrantedScopes,
                 minted.TokenID⟩,
            [grantEvent s req (evaluate s req.TargetService req.Scopes req.TtlSeconds)
               minted.TokenID],
            [(s, req.TargetService,
              (evaluate s req.TargetService req.Scopes req.TtlSeconds).GrantedScopes,
              (evaluate s req.TargetService req.Scopes req.TtlSeconds).GrantedTTL)]⟩) := by
  show (if req.TargetService = "" then _ else _) = _
  rw [if_neg ht, if_neg hsc]

end server

namespace server

/-- C5: the handler's failure classification in check order — extractor
error means Unauthenticated (before any body validation, with no audit
and no mint); empty target, then empty scope list, mean InvalidArgument;
a disallowed policy decision means PermissionDenied with the minter
never invoked and no credential produced; a mint error means Internal. -/
theorem exchange_outcomes (extractID : Except spiffe.ExtractError String)
    (evaluate : String → String → List String → Int → policy.EvalResult)
    (mint : String → String → List String → Int → Except String token.MintResult)
    (req : ExchangeRequest) :
    (∀ e, extractID = .error e →
      (Exchange extractID evaluate mint req).result = .error .Unauthenticated ∧
      (Exchange extractID evaluate mint req).auditEvents = [] ∧
      (Exchange extractID evaluate mint req).mintCalls = []) ∧
    (∀ s, extractID = .ok s → req.TargetService = "" →
      (Exchange extractID evaluate mint req).result = .error .InvalidArgument ∧
      (Exchange extractID evaluate mint req).mintCalls = []) ∧
    (∀ s, extractID = .ok s → req.TargetService ≠ "" → req.Scopes = [] →
      (Exchange extractID evaluate mint req).result = .error .InvalidArgument ∧
      (Exchange extractID evaluate mint req).mintCalls = []) ∧
    (∀ s, extractID = .ok s → req.TargetService ≠ "" → req.Scopes ≠ [] →
      (evaluate s req.TargetService req.Scopes req.TtlSeconds).Allowed = false →
      (Exchange extractID evaluate mint req).result = .error .PermissionDenied ∧
      (Exchange extractID evaluate mint req).mintCalls = []) ∧
    (∀ s msg, extractID = .ok s → req.TargetService ≠ "" → req.Scopes ≠ [] →
      (evaluate s req.TargetService req.Scopes req.TtlSeconds).Allowed = true →
      mint s req.TargetService
          (evaluate s req.TargetService req.Scopes req.TtlSeconds).GrantedScopes
          (evaluate s req.TargetService req.Scopes req.TtlSeconds).GrantedTTL = .error msg →
      (Exchange extractID evaluate mint req).result = .error .Internal) := by
  refine ⟨?_, ?_, ?_, ?_, ?_⟩
  · intro e he
    subst he
    exact ⟨rfl, rfl, rfl⟩
  · intro s hs ht
    subst hs
    constructor <;>
      · simp only [Exchange]
        rw [if_pos ht]
  · intro s hs ht hsc
    subst hs
    constructor <;>
      · simp only [Exchange]
        rw [if_neg ht, if_pos hsc]
  · intro s hs ht hsc hall
    subst hs
    rw [exchange_ok_valid evaluate mint req s ht hsc]
    constructor <;> rw [if_pos hall]
  · intro s msg hs ht hsc hall hmint
    subst hs
    rw [exchange_ok_valid evaluate mint req s ht hsc]
    rw [if_neg (by rw [hall]; simp), hmint]

end server

namespace server

/-- A minimal rule for server-level witnesses: subject `s`, target `t`,
the single scope `a`, max TTL 300. -/
def simpleRule : policy.Policy :=
  ⟨"r", "s", "t", ["a"], 300⟩

/-- A minter whose signing step always fails, as injected dependency. -/
def failingMinter : String → String → List String → Int → Except String token.MintResult :=
  fun _ _ _ _ => .error "sign token"

/-- A minter that always succeeds with fixed token data. -/
def okMinter : String → String → List String → Int → Except String token.MintResult :=
  fun _ _ scopes _ => .ok ⟨"sig", "jti-1", 1300, scopes⟩

/-- Witness for C5: the unauthenticated case and the permission-denied
case at concrete inputs. -/
theorem exchange_outcomes_witness :
    ((Exchange (.error .ErrNoPeerInfo) (policy.Evaluate [simpleRule]) failingMinter
        ⟨"", [], 0⟩).result = .error .Unauthenticated ∧
      (Exchange (.error .ErrNoPeerInfo) (policy.Evaluate [simpleRule]) failingMinter
        ⟨"", [], 0⟩).auditEvents = [] ∧
      (Exchange (.error .ErrNoPeerInfo) (policy.Evaluate [simpleRule]) failingMinter
        ⟨"", [], 0⟩).mintCalls = []) ∧
    ((Exchange (.ok "s") (policy.Evaluate [simpleRule]) okMinter
        ⟨"t", ["admin"], 60⟩).result = .error .PermissionDenied ∧
      (Exchange (.ok "s") (policy.Evaluate [simpleRule]) okMinter
        ⟨"t", ["admin"], 60⟩).mintCalls = []) :=
  ⟨(exchange_outcomes (.error .ErrNoPeerInfo) (policy.Evaluate [simpleRule]) failingMinter
      ⟨"", [], 0⟩).1 .ErrNoPeerInfo rfl,
   (exchange_outcomes (.ok "s") (policy.Evaluate [simpleRule]) okMinter
      ⟨"t", ["admin"], 60⟩).2.2.2.1 "s" rfl (by decide) (by decide) (by decide)⟩

/-- C3 counterexample: a request that reaches policy evaluation, is
allowed, and then fails at minting produces an Internal error with NO
audit event — not exactly one. -/
theorem exchange_mint_failure_no_audit :
    (Exchange (.ok "s") (policy.Evaluate [simpleRule]) failingMinter
      ⟨"t", ["a"], 60⟩).result = .error .Internal ∧
    (Exchange (.ok "s") (policy.Evaluate [simpleRule]) failingMinter
      ⟨"t", ["a"], 60⟩).auditEvents = [] :=
  ⟨rfl, rfl⟩

/-- C3 amended: once a request reaches policy evaluation, exactly one
audit event is recorded on a policy denial and on success; on a minting
failure the handler returns Internal without recording any audit
event. -/
theorem exchange_audit_emission (extractID : Except spiffe.ExtractError String)
    (evaluate : String → String → List String → Int → policy.EvalResult)
    (mint : String → String → List String → Int → Except String token.MintResult)
    (req : ExchangeRequest) (s : String)
    (hex : extractID = .ok s) (ht : req.TargetService ≠ "") (hsc : req.Scopes ≠ []) :
    ((evaluate s req.TargetService req.Scopes req.TtlSeconds).Allowed = false →
      (Exchange extractID evaluate mint req).auditEvents.length = 1) ∧
    (∀ m, (evaluate s req.TargetService req.Scopes req.TtlSeconds).Allowed = true →
      mint s req.TargetService
          (evaluate s req.TargetService req.Scopes req.TtlSeconds).GrantedScopes
          (evaluate s req.TargetService req.Scopes req.TtlSeconds).GrantedTTL = .ok m →
      (Exchange extractID evaluate mint req).auditEvents.length = 1) ∧
    (∀ msg, (evaluate s req.TargetService req.Scopes req.TtlSeconds).Allowed = true →
      mint s req.TargetService
          (evaluate s req.TargetService req.Scopes req.TtlSeconds).GrantedScopes
          (evaluate s req.TargetService req.Scopes req.TtlSeconds).GrantedTTL = .error msg →
      (Exchange extractID evaluate mint req).auditEvents = []) := by
  subst hex
  rw [exchange_ok_valid evaluate mint req s ht hsc]
  refine ⟨?_, ?_, ?_⟩
  · intro hall
    rw [if_pos hall]
    rfl
  · intro m hall hmint
    rw [if_neg (by rw [hall]; simp), hmint]
    rfl
  · intro msg hall hmint
    rw [if_neg (by rw [hall]; simp), hmint]

/-- Witness for C3's amended theorem: denial and success cases at
concrete inputs. -/
theorem exchange_audit_emission_witness :
    (Exchange (.ok "s") (policy.Evaluate [simpleRule]) okMinter
      ⟨"t", ["admin"], 60⟩).auditEvents.length = 1 ∧
    (Exchange (.ok "s") (policy.Evaluate [simpleRule]) okMinter
      ⟨"t", ["a"], 60⟩).auditEvents.length = 1 :=
  ⟨(exchange_audit_emission (.ok "s") (policy.Evaluate [simpleRule]) okMinter
      ⟨"t", ["admin"], 60⟩ "s" rfl (by decide) (by decide)).1 (by decide),
   (exchange_audit_emission (.ok "s") (policy.Evaluate [simpleRule]) okMinter
      ⟨"t", ["a"], 60⟩ "s" rfl (by decide) (by decide)).2.1
     ⟨"sig", "jti-1", 1300, (policy.Evaluate [simpleRule] "s" "t" ["a"] 60).GrantedScopes⟩
     (by decide) rfl⟩

end server
